import Mathlib

/-!
Verification development for a stock-market tool server.

The repository exposes tool functions (`get_price_history`, `get_stock_info`,
`get_stock_news`, `search`, `get_stock_recommendations`,
`get_stock_symbol_lookup`, and the helper `df_to_dict_str_keys`) that fetch
data from an external financial-data provider, derive technical-indicator
columns, and serialize the result.  The external provider and the external
indicator library are black boxes; they are modelled as function parameters
(oracles).  Data frames are modelled as association tables (a list of column
names plus one list of cells per row, indexed by an integer timestamp); a
missing value (NaN) is `Option.none`; a raised exception is `Except.error`.
-/

/-- A cell of a data frame: `none` models a missing value (NaN). -/
abbrev Cell := Option Int

/-- A pandas-style data frame: named columns and rows of cells, each row
carrying its integer timestamp index. -/
structure Frame where
  colNames : List String
  rows : List (Int × List Cell)
deriving DecidableEq

/-- The timestamp index of a frame, in row order. -/
def Frame.index (f : Frame) : List Int := f.rows.map Prod.fst

/-- Well-formedness: every row has exactly one cell per column. -/
def Frame.WF (f : Frame) : Prop := ∀ r ∈ f.rows, r.2.length = f.colNames.length

/-- Column selection `df[name]`: the cells of the first column called `name`,
in row order.  (Total model: an absent column reads as all-missing; the code
only ever selects columns that are present.) -/
def Frame.getCol (f : Frame) (name : String) : List Cell :=
  match f.colNames.findIdx? (· == name) with
  | some i => f.rows.map (fun r => r.2.getD i none)
  | none => f.rows.map (fun _ => none)

/-- Append one cell per row (index-aligned column assignment); rows beyond the
end of the value list receive a missing value. -/
def attachCol : List (Int × List Cell) → List Cell → List (Int × List Cell)
  | [], _ => []
  | r :: rs, [] => (r.1, r.2 ++ [none]) :: attachCol rs []
  | r :: rs, v :: vs => (r.1, r.2 ++ [v]) :: attachCol rs vs

/-- Column assignment `df[name] = vals` for a fresh column name. -/
def Frame.setCol (f : Frame) (name : String) (vals : List Cell) : Frame :=
  ⟨f.colNames ++ [name], attachCol f.rows vals⟩

/-- Row block of pandas `a.join(b)` (left join on the index): every left row
is paired with each right row sharing its key, or padded with missing values
when no right row matches. -/
def joinRows (n : Nat) : List (Int × List Cell) → List (Int × List Cell) → List (Int × List Cell)
  | [], _ => []
  | r :: ar, br =>
      (match br.filter (fun s => s.1 == r.1) with
       | [] => [(r.1, r.2 ++ List.replicate n none)]
       | m :: ms => (m :: ms).map (fun s => (r.1, r.2 ++ s.2))) ++ joinRows n ar br

/-- pandas `a.join(b)`: left join on the timestamp index. -/
def Frame.join (a b : Frame) : Frame :=
  ⟨a.colNames ++ b.colNames, joinRows b.colNames.length a.rows b.rows⟩

/-- One fetched price bar (timestamp, open, high, low, close, volume). -/
structure Bar where
  ts : Int
  op : Int
  hi : Int
  lo : Int
  close : Int
  vol : Int
deriving DecidableEq

/-- The price series returned by `ticker.history(...)`. -/
structure PriceBars where
  bars : List Bar
deriving DecidableEq

/-- The closing-price column of the fetched series. -/
def PriceBars.closes (h : PriceBars) : List Int := h.bars.map Bar.close

/-- The fetched series as a data frame. -/
def PriceBars.toFrame (h : PriceBars) : Frame :=
  ⟨["Open", "High", "Low", "Close", "Volume"],
   h.bars.map (fun b => (b.ts, [some b.op, some b.hi, some b.lo, some b.close, some b.vol]))⟩

/-- Minimum of a list of values (`none` on the empty list), as pandas
`.min()` over a rolling window of valid observations. -/
def aggMin : List Int → Option Int
  | [] => none
  | x :: xs => some (xs.foldl min x)

/-- Maximum of a list of values (`none` on the empty list). -/
def aggMax : List Int → Option Int
  | [] => none
  | x :: xs => some (xs.foldl max x)

/-- pandas `series.rolling(window, min_periods).agg`: at each row, aggregate
the valid observations among the trailing `window` cells; the result is
missing when fewer than `minPeriods` valid observations exist. -/
def rollingAgg (agg : List Int → Option Int) (window minPeriods : Nat)
    (xs : List Cell) : List Cell :=
  (List.range xs.length).map (fun i =>
    let w := ((xs.take (i + 1)).drop (i + 1 - window)).filterMap id
    if w.length < minPeriods then none else agg w)

/-- Outcome of `get_price_history`: the no-data sentinel, or the final table
together with the warning messages logged while assembling it (the table is
what `df.to_markdown()` serializes). -/
inductive GPHResult where
  | noData
  | table (f : Frame) (warnings : List String)
deriving DecidableEq

/-- `df["RSI"] = ta.rsi(df["Close"])` (src/mcp/server.py:85): the RSI column
is assigned unconditionally; when the library returned `None`, pandas
broadcasts it to a column in which every value is missing. -/
def rsiAssign (hist : PriceBars) (r : Option (List Cell)) : Frame :=
  match r with
  | some vals => hist.toFrame.setCol "RSI" vals
  | none => hist.toFrame.setCol "RSI" (List.replicate hist.toFrame.rows.length none)

/-- The compute-or-omit step for MACD and for Bollinger Bands
(src/mcp/server.py:87-97): a non-`None` indicator frame is joined onto the
table; a `None` result leaves the table unchanged and logs one warning. -/
def joinStep (warnMsg : String) (df : Frame) (o : Option Frame) : Frame × List String :=
  match o with
  | some m => (df.join m, [])
  | none => (df, [warnMsg])

/-- `df["Support"] / df["Resistance"]` (src/mcp/server.py:98-100): 20-row
rolling minimum and maximum of the closing price with `min_periods=1`. -/
def addSupportResistance (df : Frame) : Frame :=
  let df4 := df.setCol "Support" (rollingAgg aggMin 20 1 (df.getCol "Close"))
  df4.setCol "Resistance" (rollingAgg aggMax 20 1 (df4.getCol "Close"))

/-- Warning logged when the MACD library call returns `None`
(src/mcp/server.py:91). -/
def macdWarn (symbol : String) : String :=
  "MACD could not be calculated for " ++ symbol ++ " (possibly not enough data)"

/-- Warning logged when the Bollinger Bands library call returns `None`
(src/mcp/server.py:97). -/
def bbWarn (symbol : String) : String :=
  "Bollinger Bands could not be calculated for " ++ symbol ++ " (possibly not enough data)"

/-- `get_price_history` (src/mcp/server.py:76-103).  The provider fetch is the
`hist` argument; the three indicator-library calls are the oracle arguments,
each returning `Except.error` for a raised exception, `.ok none` for the
library's insufficient-data `None` result, and `.ok (some _)` for a computed
series/frame.  The RSI series is assigned as a column unconditionally; MACD
and Bollinger frames are joined only when non-`None`, otherwise a warning is
logged; support and resistance are appended last. -/
def get_price_history
    (rsiF : List Cell → Except String (Option (List Cell)))
    (macdF : List Cell → Except String (Option Frame))
    (bbandsF : List Cell → Except String (Option Frame))
    (hist : PriceBars) (symbol : String) : Except String GPHResult :=
  if hist.toFrame.rows.isEmpty then .ok .noData
  else
    match rsiF (hist.toFrame.getCol "Close") with
    | .error e => .error e
    | .ok rsiSer =>
      let df1 := rsiAssign hist rsiSer
      match macdF (df1.getCol "Close") with
      | .error e => .error e
      | .ok macd =>
        let st2 := joinStep (macdWarn symbol) df1 macd
        match bbandsF (st2.1.getCol "Close") with
        | .error e => .error e
        | .ok bb =>
          let st3 := joinStep (bbWarn symbol) st2.1 bb
          .ok (.table (addSupportResistance st3.1) (st2.2 ++ st3.2))

/-- The final table of a `get_price_history` result, when one was produced. -/
def resultFrame? : Except String GPHResult → Option Frame
  | .ok (.table f _) => some f
  | _ => none

/-- The warnings logged by a `get_price_history` run that produced a table. -/
def resultWarnings? : Except String GPHResult → Option (List String)
  | .ok (.table _ w) => some w
  | _ => none

/-! ### Frame lemmas -/

theorem attachCol_map_fst : ∀ (rs : List (Int × List Cell)) (vs : List Cell),
    (attachCol rs vs).map Prod.fst = rs.map Prod.fst := by
  intro rs
  induction rs with
  | nil => intro vs; rfl
  | cons r rs ih => intro vs; cases vs <;> simp [attachCol, ih]

theorem attachCol_length_snd (c : Nat) :
    ∀ (rs : List (Int × List Cell)) (vs : List Cell),
      (∀ r ∈ rs, r.2.length = c) → ∀ r' ∈ attachCol rs vs, r'.2.length = c + 1 := by
  intro rs
  induction rs with
  | nil => intro vs _ r' hr'; simp [attachCol] at hr'
  | cons r rs ih =>
    intro vs h r' hr'
    have hhd : r.2.length = c := h r (by simp)
    cases vs with
    | nil =>
      rcases List.mem_cons.mp hr' with rfl | h1
      · simp [hhd]
      · exact ih [] (fun a ha => h a (by simp [ha])) r' h1
    | cons v vs =>
      rcases List.mem_cons.mp hr' with rfl | h1
      · simp [hhd]
      · exact ih vs (fun a ha => h a (by simp [ha])) r' h1

theorem attachCol_map_getD (i : Nat) : ∀ (rs : List (Int × List Cell)) (vs : List Cell),
    (∀ r ∈ rs, i < r.2.length) →
    (attachCol rs vs).map (fun r => r.2.getD i none) = rs.map (fun r => r.2.getD i none) := by
  intro rs
  induction rs with
  | nil => intro vs _; rfl
  | cons r rs ih =>
    intro vs h
    have hr : i < r.2.length := h r (by simp)
    cases vs with
    | nil =>
      simp only [attachCol, List.map_cons]
      rw [List.getD_append _ _ _ _ hr, ih [] (fun a ha => h a (by simp [ha]))]
    | cons v vs =>
      simp only [attachCol, List.map_cons]
      rw [List.getD_append _ _ _ _ hr, ih vs (fun a ha => h a (by simp [ha]))]

theorem attachCol_map_getD_new (c : Nat) : ∀ (rs : List (Int × List Cell)) (vs : List Cell),
    (∀ r ∈ rs, r.2.length = c) → vs.length = rs.length →
    (attachCol rs vs).map (fun r => r.2.getD c none) = vs := by
  intro rs
  induction rs with
  | nil =>
    intro vs _ hlen
    rw [List.length_nil, List.length_eq_zero] at hlen
    simp [hlen, attachCol]
  | cons r rs ih =>
    intro vs h hlen
    cases vs with
    | nil => simp at hlen
    | cons v vs =>
      have hr : r.2.length = c := h r (by simp)
      simp only [attachCol, List.map_cons]
      rw [List.getD_append_right _ _ _ _ (le_of_eq hr), hr, Nat.sub_self]
      rw [ih vs (fun a ha => h a (by simp [ha])) (by simpa using hlen)]
      rfl

theorem setCol_colNames (f : Frame) (name : String) (vals : List Cell) :
    (f.setCol name vals).colNames = f.colNames ++ [name] := rfl

theorem setCol_index (f : Frame) (name : String) (vals : List Cell) :
    (f.setCol name vals).index = f.index := by
  simp [Frame.setCol, Frame.index, attachCol_map_fst]

theorem setCol_WF (f : Frame) (name : String) (vals : List Cell) (hw : f.WF) :
    (f.setCol name vals).WF := by
  intro r' hr'
  have h := attachCol_length_snd f.colNames.length f.rows vals hw r' hr'
  simpa [Frame.setCol] using h

theorem findIdx_beq_of_mem {name : String} {l : List String} (h : name ∈ l) :
    ∃ i, l.findIdx? (· == name) = some i ∧ i < l.length := by
  have hsome : (l.findIdx? (· == name)).isSome := by
    rw [List.findIdx?_isSome]
    exact List.any_eq_true.mpr ⟨name, h, by simp⟩
  rcases Option.isSome_iff_exists.mp hsome with ⟨i, hi⟩
  exact ⟨i, hi, (List.findIdx?_eq_some_iff_findIdx_eq.mp hi).1⟩

theorem getCol_length (f : Frame) (name : String) :
    (f.getCol name).length = f.rows.length := by
  unfold Frame.getCol
  cases f.colNames.findIdx? (· == name) <;> simp

theorem getCol_setCol_of_mem (f : Frame) (hw : f.WF) {name : String} (new : String)
    (vals : List Cell) (hmem : name ∈ f.colNames) :
    (f.setCol new vals).getCol name = f.getCol name := by
  rcases findIdx_beq_of_mem hmem with ⟨i, hi, hilt⟩
  have hidx : (f.colNames ++ [new]).findIdx? (· == name) = some i := by
    rw [List.findIdx?_append, hi]; rfl
  simp only [Frame.getCol, Frame.setCol, hidx, hi]
  exact attachCol_map_getD i f.rows vals (fun r hr => by rw [hw r hr]; exact hilt)

theorem getCol_setCol_self (f : Frame) (hw : f.WF) {name : String} (vals : List Cell)
    (hnot : name ∉ f.colNames) (hlen : vals.length = f.rows.length) :
    (f.setCol name vals).getCol name = vals := by
  have hnone : f.colNames.findIdx? (· == name) = none := by
    rw [List.findIdx?_eq_none_iff]
    intro x hx
    simp only [beq_eq_false_iff_ne]
    exact fun hxe => hnot (hxe ▸ hx)
  have hidx : (f.colNames ++ [name]).findIdx? (· == name) = some f.colNames.length := by
    rw [List.findIdx?_append, hnone]
    simp [List.findIdx?_cons]
  simp only [Frame.getCol, Frame.setCol, hidx]
  exact attachCol_map_getD_new f.colNames.length f.rows vals hw hlen

theorem filter_key_eq_nil {k : Int} (l : List (Int × List Cell))
    (hl : k ∉ l.map Prod.fst) : l.filter (fun s => s.1 == k) = [] := by
  rw [List.filter_eq_nil_iff]
  intro a ha
  simp only [beq_iff_eq]
  intro hak
  exact hl (hak ▸ List.mem_map.mpr ⟨a, ha, rfl⟩)

theorem joinRows_skip (n : Nat) (s : Int × List Cell) :
    ∀ (ar br : List (Int × List Cell)), s.1 ∉ ar.map Prod.fst →
      joinRows n ar (s :: br) = joinRows n ar br := by
  intro ar
  induction ar with
  | nil => intro br _; rfl
  | cons r ar ih =>
    intro br h
    have hne : ¬(s.1 == r.1) = true := by
      simp only [beq_iff_eq]
      intro he
      exact h (by simp [he])
    simp only [joinRows]
    rw [List.filter_cons_of_neg (p := fun x : Int × List Cell => x.1 == r.1) hne,
      ih br (fun hm => h (by simp [hm]))]

theorem joinRows_aligned (n : Nat) :
    ∀ (ar br : List (Int × List Cell)),
      br.map Prod.fst = ar.map Prod.fst → (ar.map Prod.fst).Nodup →
      joinRows n ar br = List.zipWith (fun r s => (r.1, r.2 ++ s.2)) ar br := by
  intro ar
  induction ar with
  | nil =>
    intro br hk _
    have hb : br = [] := by
      cases br with
      | nil => rfl
      | cons x xs => simp at hk
    simp [hb, joinRows]
  | cons r ar ih =>
    intro br hk hnd
    cases br with
    | nil => simp at hk
    | cons s br =>
      simp only [List.map_cons, List.cons.injEq] at hk
      obtain ⟨hks, hkt⟩ := hk
      simp only [List.map_cons, List.nodup_cons] at hnd
      obtain ⟨hrmem, hnd'⟩ := hnd
      have hfil : (s :: br).filter (fun x => x.1 == r.1) = [s] := by
        have h1 : (s.1 == r.1) = true := by simp [hks]
        rw [List.filter_cons_of_pos (p := fun x : Int × List Cell => x.1 == r.1) h1,
          filter_key_eq_nil br (by rw [hkt]; exact hrmem)]
      simp only [joinRows, hfil]
      rw [joinRows_skip n s ar br (by rw [hks]; exact hrmem), ih br hkt hnd']
      simp

theorem join_rows_eq (a b : Frame) (hk : b.index = a.index) (hnd : a.index.Nodup) :
    (a.join b).rows = List.zipWith (fun r s => (r.1, r.2 ++ s.2)) a.rows b.rows :=
  joinRows_aligned _ a.rows b.rows hk hnd

theorem zipWith_pair_map_fst : ∀ (ar br : List (Int × List Cell)), br.length = ar.length →
    (List.zipWith (fun r s => (r.1, r.2 ++ s.2)) ar br).map Prod.fst = ar.map Prod.fst := by
  intro ar
  induction ar with
  | nil => intro br _; simp
  | cons r ar ih =>
    intro br h
    cases br with
    | nil => simp at h
    | cons s br => simpa using ih br (by simpa using h)

theorem zipWith_pair_map_getD (i : Nat) : ∀ (ar br : List (Int × List Cell)),
    br.length = ar.length → (∀ r ∈ ar, i < r.2.length) →
    (List.zipWith (fun r s => (r.1, r.2 ++ s.2)) ar br).map (fun r => r.2.getD i none)
      = ar.map (fun r => r.2.getD i none) := by
  intro ar
  induction ar with
  | nil => intro br _ _; simp
  | cons r ar ih =>
    intro br hlen h
    cases br with
    | nil => simp at hlen
    | cons s br =>
      simp only [List.zipWith_cons_cons, List.map_cons]
      rw [List.getD_append _ _ _ _ (h r (by simp)),
        ih br (by simpa using hlen) (fun a ha => h a (by simp [ha]))]

theorem mem_zipWith_pair : ∀ (ar br : List (Int × List Cell)) (x : Int × List Cell),
    x ∈ List.zipWith (fun r s => (r.1, r.2 ++ s.2)) ar br →
    ∃ r ∈ ar, ∃ s ∈ br, x = (r.1, r.2 ++ s.2) := by
  intro ar
  induction ar with
  | nil => intro br x hx; simp at hx
  | cons r ar ih =>
    intro br x hx
    cases br with
    | nil => simp at hx
    | cons s br =>
      simp only [List.zipWith_cons_cons, List.mem_cons] at hx
      rcases hx with rfl | hx
      · exact ⟨r, by simp, s, by simp, rfl⟩
      · rcases ih br x hx with ⟨r', hr', s', hs', he⟩
        exact ⟨r', by simp [hr'], s', by simp [hs'], he⟩

theorem index_length_rows (f : Frame) : f.index.length = f.rows.length := by
  simp [Frame.index]

theorem join_index (a b : Frame) (hk : b.index = a.index) (hnd : a.index.Nodup) :
    (a.join b).index = a.index := by
  have hlen : b.rows.length = a.rows.length := by
    have h := congrArg List.length hk
    simpa [Frame.index] using h
  show ((a.join b).rows).map Prod.fst = a.index
  rw [join_rows_eq a b hk hnd]
  exact zipWith_pair_map_fst a.rows b.rows hlen

theorem join_colNames (a b : Frame) : (a.join b).colNames = a.colNames ++ b.colNames := rfl

theorem join_WF (a b : Frame) (hwa : a.WF) (hwb : b.WF) (hk : b.index = a.index)
    (hnd : a.index.Nodup) : (a.join b).WF := by
  intro r' hr'
  rw [join_rows_eq a b hk hnd] at hr'
  rcases mem_zipWith_pair a.rows b.rows r' hr' with ⟨r, hr, s, hs, rfl⟩
  simp [join_colNames, hwa r hr, hwb s hs]

theorem join_getCol_left (a b : Frame) (hw : a.WF) (hk : b.index = a.index)
    (hnd : a.index.Nodup) {name : String} (hmem : name ∈ a.colNames) :
    (a.join b).getCol name = a.getCol name := by
  rcases findIdx_beq_of_mem hmem with ⟨i, hi, hilt⟩
  have hidx : (a.colNames ++ b.colNames).findIdx? (· == name) = some i := by
    rw [List.findIdx?_append, hi]; rfl
  have hlen : b.rows.length = a.rows.length := by
    have h := congrArg List.length hk
    simpa [Frame.index] using h
  have hrows := join_rows_eq a b hk hnd
  simp only [Frame.getCol, join_colNames, hidx, hi, hrows]
  exact zipWith_pair_map_getD i a.rows b.rows hlen (fun r hr => by rw [hw r hr]; exact hilt)

/-! ### Lemmas about the fetched frame -/

theorem toFrame_WF (h : PriceBars) : h.toFrame.WF := by
  intro r hr
  simp only [PriceBars.toFrame, List.mem_map] at hr
  rcases hr with ⟨b, _, rfl⟩
  rfl

theorem toFrame_colNames (h : PriceBars) :
    h.toFrame.colNames = ["Open", "High", "Low", "Close", "Volume"] := rfl

theorem toFrame_getCol_close (h : PriceBars) :
    h.toFrame.getCol "Close" = h.closes.map some := by
  have hidx : (["Open", "High", "Low", "Close", "Volume"] : List String).findIdx?
      (· == "Close") = some 3 := by decide
  simp only [Frame.getCol, toFrame_colNames, hidx, PriceBars.toFrame, PriceBars.closes,
    List.map_map]
  rfl

theorem toFrame_rows_length (h : PriceBars) : h.toFrame.rows.length = h.bars.length := by
  simp [PriceBars.toFrame]

/-! ### Rolling minimum and maximum -/

theorem foldl_min_le_init : ∀ (xs : List Int) (x : Int), xs.foldl min x ≤ x := by
  intro xs
  induction xs with
  | nil => intro x; simp
  | cons y xs ih =>
    intro x
    calc (y :: xs).foldl min x = xs.foldl min (min x y) := rfl
      _ ≤ min x y := ih _
      _ ≤ x := min_le_left _ _

theorem foldl_min_le_mem : ∀ (xs : List Int) (x y : Int), y ∈ xs → xs.foldl min x ≤ y := by
  intro xs
  induction xs with
  | nil => intro x y hy; simp at hy
  | cons z xs ih =>
    intro x y hy
    rcases List.mem_cons.mp hy with rfl | hy
    · calc (y :: xs).foldl min x = xs.foldl min (min x y) := rfl
        _ ≤ min x y := foldl_min_le_init xs _
        _ ≤ y := min_le_right _ _
    · exact ih (min x z) y hy

theorem foldl_min_mem : ∀ (xs : List Int) (x : Int), xs.foldl min x = x ∨ xs.foldl min x ∈ xs := by
  intro xs
  induction xs with
  | nil => intro x; left; rfl
  | cons y xs ih =>
    intro x
    rcases ih (min x y) with h | h
    · rcases min_choice x y with hc | hc
      · left; rw [List.foldl_cons, h, hc]
      · right; rw [List.foldl_cons, h, hc]; exact List.mem_cons_self _ _
    · right; exact List.mem_cons_of_mem _ h

theorem foldl_max_init_le : ∀ (xs : List Int) (x : Int), x ≤ xs.foldl max x := by
  intro xs
  induction xs with
  | nil => intro x; simp
  | cons y xs ih =>
    intro x
    calc x ≤ max x y := le_max_left _ _
      _ ≤ xs.foldl max (max x y) := ih _
      _ = (y :: xs).foldl max x := rfl

theorem foldl_max_mem_le : ∀ (xs : List Int) (x y : Int), y ∈ xs → y ≤ xs.foldl max x := by
  intro xs
  induction xs with
  | nil => intro x y hy; simp at hy
  | cons z xs ih =>
    intro x y hy
    rcases List.mem_cons.mp hy with rfl | hy
    · calc y ≤ max x y := le_max_right _ _
        _ ≤ xs.foldl max (max x y) := foldl_max_init_le xs _
        _ = (y :: xs).foldl max x := rfl
    · exact ih (max x z) y hy

theorem foldl_max_mem : ∀ (xs : List Int) (x : Int), xs.foldl max x = x ∨ xs.foldl max x ∈ xs := by
  intro xs
  induction xs with
  | nil => intro x; left; rfl
  | cons y xs ih =>
    intro x
    rcases ih (max x y) with h | h
    · rcases max_choice x y with hc | hc
      · left; rw [List.foldl_cons, h, hc]
      · right; rw [List.foldl_cons, h, hc]; exact List.mem_cons_self _ _
    · right; exact List.mem_cons_of_mem _ h

theorem aggMin_spec (w : List Int) (hw : w ≠ []) :
    ∃ m, aggMin w = some m ∧ m ∈ w ∧ ∀ x ∈ w, m ≤ x := by
  cases w with
  | nil => exact absurd rfl hw
  | cons a xs =>
    refine ⟨xs.foldl min a, rfl, ?_, ?_⟩
    · rcases foldl_min_mem xs a with h | h
      · rw [h]; exact List.mem_cons_self _ _
      · exact List.mem_cons_of_mem _ h
    · intro x hx
      rcases List.mem_cons.mp hx with rfl | hx
      · exact foldl_min_le_init xs x
      · exact foldl_min_le_mem xs a x hx

theorem aggMax_spec (w : List Int) (hw : w ≠ []) :
    ∃ m, aggMax w = some m ∧ m ∈ w ∧ ∀ x ∈ w, x ≤ m := by
  cases w with
  | nil => exact absurd rfl hw
  | cons a xs =>
    refine ⟨xs.foldl max a, rfl, ?_, ?_⟩
    · rcases foldl_max_mem xs a with h | h
      · rw [h]; exact List.mem_cons_self _ _
      · exact List.mem_cons_of_mem _ h
    · intro x hx
      rcases List.mem_cons.mp hx with rfl | hx
      · exact foldl_max_init_le xs x
      · exact foldl_max_mem_le xs a x hx

theorem rollingAgg_length (agg : List Int → Option Int) (window minPeriods : Nat)
    (xs : List Cell) : (rollingAgg agg window minPeriods xs).length = xs.length := by
  simp [rollingAgg]

theorem rollingAgg_getD (agg : List Int → Option Int) (window minPeriods : Nat)
    (xs : List Cell) (i : Nat) (hi : i < xs.length) :
    (rollingAgg agg window minPeriods xs).getD i none =
      (if (((xs.take (i + 1)).drop (i + 1 - window)).filterMap id).length < minPeriods
       then none
       else agg (((xs.take (i + 1)).drop (i + 1 - window)).filterMap id)) := by
  unfold rollingAgg
  rw [List.getD_eq_getElem?_getD, List.getElem?_map, List.getElem?_range hi]
  rfl

theorem filterMap_id_map_some (l : List Int) : (l.map some).filterMap id = l := by
  induction l with
  | nil => rfl
  | cons x xs ih => simp [ih]

theorem window_of_map_some (closes : List Int) (k n : Nat) :
    (((closes.map some).take n).drop k).filterMap id = (closes.take n).drop k := by
  rw [← List.map_take, ← List.map_drop, filterMap_id_map_some]

/-- The trailing window as the claim states it: the last `window` rows ending
at row `i`, or all rows so far when fewer than `window` exist. -/
def claimWindow (closes : List Int) (window i : Nat) : List Int :=
  if i + 1 ≤ window then closes.take (i + 1)
  else (closes.drop (i + 1 - window)).take window

theorem claimWindow_eq (closes : List Int) (window i : Nat) :
    (closes.take (i + 1)).drop (i + 1 - window) = claimWindow closes window i := by
  unfold claimWindow
  split
  case isTrue h =>
    have h0 : i + 1 - window = 0 := by omega
    simp [h0]
  case isFalse h =>
    rw [List.drop_take]
    congr 1
    omega

theorem claimWindow_ne_nil (closes : List Int) (window i : Nat) (hi : i < closes.length)
    (hw : 0 < window) : claimWindow closes window i ≠ [] := by
  unfold claimWindow
  split <;> intro hcon <;>
    · have hl := congrArg List.length hcon
      simp only [List.length_take, List.length_drop, List.length_nil, inf_eq_min,
        Nat.min_def] at hl
      split at hl <;> omega

/-! ### Pipeline-stage lemmas -/

theorem rsiAssign_colNames (hist : PriceBars) (r : Option (List Cell)) :
    (rsiAssign hist r).colNames = ["Open", "High", "Low", "Close", "Volume", "RSI"] := by
  cases r <;> rfl

theorem rsiAssign_index (hist : PriceBars) (r : Option (List Cell)) :
    (rsiAssign hist r).index = hist.toFrame.index := by
  cases r <;> simp [rsiAssign, setCol_index]

theorem rsiAssign_WF (hist : PriceBars) (r : Option (List Cell)) : (rsiAssign hist r).WF := by
  cases r <;> exact setCol_WF _ _ _ (toFrame_WF hist)

theorem rsiAssign_getCol_close (hist : PriceBars) (r : Option (List Cell)) :
    (rsiAssign hist r).getCol "Close" = hist.closes.map some := by
  have hmem : "Close" ∈ hist.toFrame.colNames := by rw [toFrame_colNames]; simp
  cases r with
  | some vals =>
    rw [rsiAssign, getCol_setCol_of_mem _ (toFrame_WF hist) _ _ hmem]
    exact toFrame_getCol_close hist
  | none =>
    rw [rsiAssign, getCol_setCol_of_mem _ (toFrame_WF hist) _ _ hmem]
    exact toFrame_getCol_close hist

theorem joinStep_index (msg : String) (df : Frame) (o : Option Frame)
    (hnd : df.index.Nodup) (ho : ∀ m, o = some m → m.index = df.index) :
    (joinStep msg df o).1.index = df.index := by
  cases o with
  | none => rfl
  | some m => exact join_index df m (ho m rfl) hnd

theorem joinStep_WF (msg : String) (df : Frame) (o : Option Frame) (hw : df.WF)
    (hnd : df.index.Nodup) (ho : ∀ m, o = some m → m.index = df.index ∧ m.WF) :
    (joinStep msg df o).1.WF := by
  cases o with
  | none => exact hw
  | some m => exact join_WF df m hw (ho m rfl).2 (ho m rfl).1 hnd

theorem joinStep_getCol (msg : String) (df : Frame) (o : Option Frame) (hw : df.WF)
    (hnd : df.index.Nodup) (ho : ∀ m, o = some m → m.index = df.index)
    {name : String} (hmem : name ∈ df.colNames) :
    (joinStep msg df o).1.getCol name = df.getCol name := by
  cases o with
  | none => rfl
  | some m => exact join_getCol_left df m hw (ho m rfl) hnd hmem

theorem joinStep_colName_mem (msg : String) (df : Frame) (o : Option Frame)
    {name : String} (h : name ∈ df.colNames) :
    name ∈ (joinStep msg df o).1.colNames := by
  cases o with
  | none => exact h
  | some m => exact List.mem_append_left _ h

theorem joinStep_colName_not_mem (msg : String) (df : Frame) (o : Option Frame)
    {name : String} (h1 : name ∉ df.colNames)
    (h2 : ∀ m, o = some m → name ∉ m.colNames) :
    name ∉ (joinStep msg df o).1.colNames := by
  cases o with
  | none => exact h1
  | some m =>
    show name ∉ df.colNames ++ m.colNames
    rw [List.mem_append]
    rintro (h | h)
    · exact h1 h
    · exact h2 m rfl h

theorem addSR_colNames (df : Frame) :
    (addSupportResistance df).colNames = df.colNames ++ ["Support"] ++ ["Resistance"] := rfl

theorem addSR_index (df : Frame) : (addSupportResistance df).index = df.index := by
  simp [addSupportResistance, setCol_index]

theorem addSR_WF (df : Frame) (hw : df.WF) : (addSupportResistance df).WF :=
  setCol_WF _ _ _ (setCol_WF _ _ _ hw)

theorem addSR_getCol_of_mem (df : Frame) (hw : df.WF) {name : String}
    (hmem : name ∈ df.colNames) :
    (addSupportResistance df).getCol name = df.getCol name := by
  unfold addSupportResistance
  rw [getCol_setCol_of_mem _ (setCol_WF _ _ _ hw) _ _ (List.mem_append_left _ hmem)]
  exact getCol_setCol_of_mem _ hw _ _ hmem

theorem addSR_getCol_support (df : Frame) (hw : df.WF) (hns : "Support" ∉ df.colNames) :
    (addSupportResistance df).getCol "Support"
      = rollingAgg aggMin 20 1 (df.getCol "Close") := by
  unfold addSupportResistance
  rw [getCol_setCol_of_mem _ (setCol_WF _ _ _ hw) _ _ (by rw [setCol_colNames]; simp)]
  exact getCol_setCol_self df hw _ hns (by rw [rollingAgg_length, getCol_length])

theorem addSR_getCol_resistance (df : Frame) (hw : df.WF)
    (hc : "Close" ∈ df.colNames) (hnr : "Resistance" ∉ df.colNames) :
    (addSupportResistance df).getCol "Resistance"
      = rollingAgg aggMax 20 1 (df.getCol "Close") := by
  unfold addSupportResistance
  have hw4 := setCol_WF df "Support" (rollingAgg aggMin 20 1 (df.getCol "Close")) hw
  have hnr4 : "Resistance"
      ∉ (df.setCol "Support" (rollingAgg aggMin 20 1 (df.getCol "Close"))).colNames := by
    rw [setCol_colNames, List.mem_append]
    rintro (h | h)
    · exact hnr h
    · simp at h
  rw [getCol_setCol_self _ hw4 _ hnr4 (by rw [rollingAgg_length, getCol_length]),
    getCol_setCol_of_mem _ hw _ _ hc]

/-- Inversion of a successful `get_price_history` run, exposing the three
library results and the staged construction of the final table. -/
theorem gph_ok_inv
    (rsiF : List Cell → Except String (Option (List Cell)))
    (macdF : List Cell → Except String (Option Frame))
    (bbandsF : List Cell → Except String (Option Frame))
    (hist : PriceBars) (symbol : String) (f : Frame) (w : List String)
    (hres : get_price_history rsiF macdF bbandsF hist symbol = .ok (.table f w)) :
    ∃ r mo bo,
      rsiF (hist.toFrame.getCol "Close") = .ok r ∧
      macdF ((rsiAssign hist r).getCol "Close") = .ok mo ∧
      bbandsF ((joinStep (macdWarn symbol) (rsiAssign hist r) mo).1.getCol "Close") = .ok bo ∧
      f = addSupportResistance
        (joinStep (bbWarn symbol) (joinStep (macdWarn symbol) (rsiAssign hist r) mo).1 bo).1 ∧
      w = (joinStep (macdWarn symbol) (rsiAssign hist r) mo).2
        ++ (joinStep (bbWarn symbol) (joinStep (macdWarn symbol) (rsiAssign hist r) mo).1 bo).2 := by
  unfold get_price_history at hres
  split at hres
  · simp at hres
  · split at hres
    · simp at hres
    · next r h1 =>
      dsimp only [] at hres
      split at hres
      · simp at hres
      · next mo h2 =>
        split at hres
        · simp at hres
        · next bo h3 =>
          simp only [Except.ok.injEq, GPHResult.table.injEq] at hres
          exact ⟨r, mo, bo, h1, h2, h3, hres.1.symm, hres.2.symm⟩

/-! ### Claim C3 -/

/-- C3: in `get_price_history`, joining the MACD and Bollinger Band columns
onto the fetched price series never introduces, drops, or reorders rows:
whenever a table is produced for a fetched series with distinct timestamps,
and the indicator library returns frames aligned to the input index (as
pandas-ta does), the output table has exactly the original timestamp index,
in the original order, and the original number of rows. -/
theorem gph_join_preserves_rows
    (rsiF : List Cell → Except String (Option (List Cell)))
    (macdF : List Cell → Except String (Option Frame))
    (bbandsF : List Cell → Except String (Option Frame))
    (hist : PriceBars) (symbol : String) (f : Frame) (w : List String)
    (hnd : hist.toFrame.index.Nodup)
    (hm : ∀ s m, macdF s = .ok (some m) → m.index = hist.toFrame.index)
    (hb : ∀ s m, bbandsF s = .ok (some m) → m.index = hist.toFrame.index)
    (hres : get_price_history rsiF macdF bbandsF hist symbol = .ok (.table f w)) :
    f.index = hist.toFrame.index ∧ f.rows.length = hist.bars.length := by
  rcases gph_ok_inv rsiF macdF bbandsF hist symbol f w hres with ⟨r, mo, bo, h1, h2, h3, hf, hw⟩
  subst hf
  have hidx1 : (rsiAssign hist r).index = hist.toFrame.index := rsiAssign_index hist r
  have hnd1 : (rsiAssign hist r).index.Nodup := by rw [hidx1]; exact hnd
  have hmo : ∀ m, mo = some m → m.index = (rsiAssign hist r).index := by
    intro m hm'
    rw [hidx1]
    exact hm _ m (hm' ▸ h2)
  have hidx2 : (joinStep (macdWarn symbol) (rsiAssign hist r) mo).1.index
      = hist.toFrame.index := by
    rw [joinStep_index _ _ _ hnd1 hmo, hidx1]
  have hnd2 : (joinStep (macdWarn symbol) (rsiAssign hist r) mo).1.index.Nodup := by
    rw [hidx2]; exact hnd
  have hbo : ∀ m, bo = some m →
      m.index = (joinStep (macdWarn symbol) (rsiAssign hist r) mo).1.index := by
    intro m hb'
    rw [hidx2]
    exact hb _ m (hb' ▸ h3)
  have hidx3 : (joinStep (bbWarn symbol)
      (joinStep (macdWarn symbol) (rsiAssign hist r) mo).1 bo).1.index
      = hist.toFrame.index := by
    rw [joinStep_index _ _ _ hnd2 hbo, hidx2]
  have hfin := (addSR_index _).trans hidx3
  refine ⟨hfin, ?_⟩
  have hlen := congrArg List.length hfin
  rw [index_length_rows, index_length_rows, toFrame_rows_length] at hlen
  exact hlen

/-- A concrete two-bar fetched series used to instantiate claim theorems. -/
def histW : PriceBars := ⟨[⟨0, 10, 12, 9, 11, 100⟩, ⟨1, 11, 13, 10, 12, 120⟩]⟩

/-- An RSI oracle whose every call reports insufficient data (`None`). -/
def rsiNoneF : List Cell → Except String (Option (List Cell)) := fun _ => .ok none

/-- A MACD oracle whose every call reports insufficient data (`None`). -/
def macdNoneF : List Cell → Except String (Option Frame) := fun _ => .ok none

/-- A Bollinger oracle whose every call reports insufficient data (`None`). -/
def bbNoneF : List Cell → Except String (Option Frame) := fun _ => .ok none

theorem gph_join_preserves_rows_witness :
    (addSupportResistance (rsiAssign histW none)).index = histW.toFrame.index ∧
    (addSupportResistance (rsiAssign histW none)).rows.length = histW.bars.length :=
  gph_join_preserves_rows rsiNoneF macdNoneF bbNoneF histW "AAPL" _ _
    (by decide)
    (by intro s m hsm; simp [macdNoneF] at hsm)
    (by intro s m hsm; simp [bbNoneF] at hsm)
    rfl

/-! ### Claim C4 -/

/-- C4: in `get_price_history`, for every fetched series with distinct
timestamps (and indicator frames aligned to it, with fresh column names, as
pandas-ta produces), whenever a table is produced, the Support cell of row
`i` is the minimum of the closing prices over the trailing 20-row window
(all rows so far when fewer than 20 exist) and the Resistance cell is the
corresponding maximum; both are defined at every row, including the first. -/
theorem gph_support_resistance_defined
    (rsiF : List Cell → Except String (Option (List Cell)))
    (macdF : List Cell → Except String (Option Frame))
    (bbandsF : List Cell → Except String (Option Frame))
    (hist : PriceBars) (symbol : String) (f : Frame) (w : List String)
    (hnd : hist.toFrame.index.Nodup)
    (hm : ∀ s m, macdF s = .ok (some m) → m.index = hist.toFrame.index ∧ m.WF ∧
      "Support" ∉ m.colNames ∧ "Resistance" ∉ m.colNames)
    (hb : ∀ s m, bbandsF s = .ok (some m) → m.index = hist.toFrame.index ∧ m.WF ∧
      "Support" ∉ m.colNames ∧ "Resistance" ∉ m.colNames)
    (hres : get_price_history rsiF macdF bbandsF hist symbol = .ok (.table f w)) :
    ∀ i < hist.closes.length, ∃ sv rv,
      (f.getCol "Support").getD i none = some sv ∧
      (f.getCol "Resistance").getD i none = some rv ∧
      sv ∈ claimWindow hist.closes 20 i ∧ (∀ x ∈ claimWindow hist.closes 20 i, sv ≤ x) ∧
      rv ∈ claimWindow hist.closes 20 i ∧ (∀ x ∈ claimWindow hist.closes 20 i, x ≤ rv) := by
  rcases gph_ok_inv rsiF macdF bbandsF hist symbol f w hres with ⟨r, mo, bo, h1, h2, h3, hf, hwn⟩
  subst hf
  have hidx1 : (rsiAssign hist r).index = hist.toFrame.index := rsiAssign_index hist r
  have hnd1 : (rsiAssign hist r).index.Nodup := by rw [hidx1]; exact hnd
  have hwf1 : (rsiAssign hist r).WF := rsiAssign_WF hist r
  have hcm1 : "Close" ∈ (rsiAssign hist r).colNames := by rw [rsiAssign_colNames]; simp
  have hcl1 : (rsiAssign hist r).getCol "Close" = hist.closes.map some :=
    rsiAssign_getCol_close hist r
  have hns1 : "Support" ∉ (rsiAssign hist r).colNames := by rw [rsiAssign_colNames]; decide
  have hnr1 : "Resistance" ∉ (rsiAssign hist r).colNames := by rw [rsiAssign_colNames]; decide
  have hmo : ∀ m, mo = some m → m.index = (rsiAssign hist r).index ∧ m.WF := by
    intro m hm'
    have hfacts := hm _ m (hm' ▸ h2)
    exact ⟨hidx1 ▸ hfacts.1, hfacts.2.1⟩
  have hidx2 : (joinStep (macdWarn symbol) (rsiAssign hist r) mo).1.index
      = hist.toFrame.index := by
    rw [joinStep_index _ _ _ hnd1 (fun m hm' => (hmo m hm').1), hidx1]
  have hnd2 : (joinStep (macdWarn symbol) (rsiAssign hist r) mo).1.index.Nodup := by
    rw [hidx2]; exact hnd
  have hwf2 : (joinStep (macdWarn symbol) (rsiAssign hist r) mo).1.WF :=
    joinStep_WF _ _ _ hwf1 hnd1 hmo
  have hcm2 : "Close" ∈ (joinStep (macdWarn symbol) (rsiAssign hist r) mo).1.colNames :=
    joinStep_colName_mem _ _ _ hcm1
  have hcl2 : (joinStep (macdWarn symbol) (rsiAssign hist r) mo).1.getCol "Close"
      = hist.closes.map some := by
    rw [joinStep_getCol _ _ _ hwf1 hnd1 (fun m hm' => (hmo m hm').1) hcm1, hcl1]
  have hns2 : "Support" ∉ (joinStep (macdWarn symbol) (rsiAssign hist r) mo).1.colNames :=
    joinStep_colName_not_mem _ _ _ hns1 (fun m hm' => (hm _ m (hm' ▸ h2)).2.2.1)
  have hnr2 : "Resistance" ∉ (joinStep (macdWarn symbol) (rsiAssign hist r) mo).1.colNames :=
    joinStep_colName_not_mem _ _ _ hnr1 (fun m hm' => (hm _ m (hm' ▸ h2)).2.2.2)
  have hbo : ∀ m, bo = some m →
      m.index = (joinStep (macdWarn symbol) (rsiAssign hist r) mo).1.index ∧ m.WF := by
    intro m hb'
    have hfacts := hb _ m (hb' ▸ h3)
    exact ⟨hidx2 ▸ hfacts.1, hfacts.2.1⟩
  have hwf3 : (joinStep (bbWarn symbol)
      (joinStep (macdWarn symbol) (rsiAssign hist r) mo).1 bo).1.WF :=
    joinStep_WF _ _ _ hwf2 hnd2 hbo
  have hcm3 : "Close" ∈ (joinStep (bbWarn symbol)
      (joinStep (macdWarn symbol) (rsiAssign hist r) mo).1 bo).1.colNames :=
    joinStep_colName_mem _ _ _ hcm2
  have hcl3 : (joinStep (bbWarn symbol)
      (joinStep (macdWarn symbol) (rsiAssign hist r) mo).1 bo).1.getCol "Close"
      = hist.closes.map some := by
    rw [joinStep_getCol _ _ _ hwf2 hnd2 (fun m hb' => (hbo m hb').1) hcm2, hcl2]
  have hns3 : "Support" ∉ (joinStep (bbWarn symbol)
      (joinStep (macdWarn symbol) (rsiAssign hist r) mo).1 bo).1.colNames :=
    joinStep_colName_not_mem _ _ _ hns2 (fun m hb' => (hb _ m (hb' ▸ h3)).2.2.1)
  have hnr3 : "Resistance" ∉ (joinStep (bbWarn symbol)
      (joinStep (macdWarn symbol) (rsiAssign hist r) mo).1 bo).1.colNames :=
    joinStep_colName_not_mem _ _ _ hnr2 (fun m hb' => (hb _ m (hb' ▸ h3)).2.2.2)
  have hsupp : (addSupportResistance (joinStep (bbWarn symbol)
      (joinStep (macdWarn symbol) (rsiAssign hist r) mo).1 bo).1).getCol "Support"
      = rollingAgg aggMin 20 1 (hist.closes.map some) := by
    rw [addSR_getCol_support _ hwf3 hns3, hcl3]
  have hresi : (addSupportResistance (joinStep (bbWarn symbol)
      (joinStep (macdWarn symbol) (rsiAssign hist r) mo).1 bo).1).getCol "Resistance"
      = rollingAgg aggMax 20 1 (hist.closes.map some) := by
    rw [addSR_getCol_resistance _ hwf3 hcm3 hnr3, hcl3]
  intro i hi
  have hlen' : i < (hist.closes.map some).length := by simpa using hi
  have hwin : ((((hist.closes.map some).take (i + 1)).drop (i + 1 - 20)).filterMap id)
      = claimWindow hist.closes 20 i := by
    rw [window_of_map_some, claimWindow_eq]
  have hne : claimWindow hist.closes 20 i ≠ [] :=
    claimWindow_ne_nil _ _ _ hi (by omega)
  have hlenpos : 0 < (claimWindow hist.closes 20 i).length := List.length_pos.mpr hne
  rcases aggMin_spec _ hne with ⟨sv, hsv, hsvmem, hsvle⟩
  rcases aggMax_spec _ hne with ⟨rv, hrv, hrvmem, hrvle⟩
  refine ⟨sv, rv, ?_, ?_, hsvmem, hsvle, hrvmem, hrvle⟩
  · rw [hsupp, rollingAgg_getD _ _ _ _ i hlen', hwin, if_neg (by omega), hsv]
  · rw [hresi, rollingAgg_getD _ _ _ _ i hlen', hwin, if_neg (by omega), hrv]

theorem gph_support_resistance_defined_witness :
    (0 : Nat) < histW.closes.length ∧
    (∃ sv rv,
      ((addSupportResistance (rsiAssign histW none)).getCol "Support").getD 0 none = some sv ∧
      ((addSupportResistance (rsiAssign histW none)).getCol "Resistance").getD 0 none = some rv ∧
      sv ∈ claimWindow histW.closes 20 0 ∧ (∀ x ∈ claimWindow histW.closes 20 0, sv ≤ x) ∧
      rv ∈ claimWindow histW.closes 20 0 ∧ (∀ x ∈ claimWindow histW.closes 20 0, x ≤ rv)) :=
  ⟨by decide,
    gph_support_resistance_defined rsiNoneF macdNoneF bbNoneF histW "AAPL" _ _
      (by decide)
      (by intro s m hsm; simp [macdNoneF] at hsm)
      (by intro s m hsm; simp [bbNoneF] at hsm)
      rfl 0 (by decide)⟩

/-! ### Claims C1 and C2 -/

/-- C1 (amended): for a fetched non-empty series on which the indicator
library reports insufficient data (`None`) for all three indicators — as it
does for a 5-row series, below the RSI minimum of 14 rows — the MACD and
Bollinger columns are entirely absent and one warning is logged for each,
while the base price columns are unaffected and support/resistance are
defined on every row; the RSI column, however, is not absent: it is present
with every value missing, and no warning is logged for it. -/
theorem gph_rsi_column_always_present
    (rsiF : List Cell → Except String (Option (List Cell)))
    (macdF : List Cell → Except String (Option Frame))
    (bbandsF : List Cell → Except String (Option Frame))
    (hist : PriceBars) (symbol : String)
    (hne : hist.bars ≠ [])
    (hr : ∀ s, rsiF s = .ok none)
    (hm : ∀ s, macdF s = .ok none)
    (hb : ∀ s, bbandsF s = .ok none) :
    get_price_history rsiF macdF bbandsF hist symbol
      = .ok (.table (addSupportResistance (rsiAssign hist none))
          [macdWarn symbol, bbWarn symbol]) ∧
    (addSupportResistance (rsiAssign hist none)).colNames
      = ["Open", "High", "Low", "Close", "Volume", "RSI", "Support", "Resistance"] ∧
    (addSupportResistance (rsiAssign hist none)).getCol "RSI"
      = List.replicate hist.bars.length none ∧
    (addSupportResistance (rsiAssign hist none)).getCol "Close" = hist.closes.map some ∧
    (∀ i < hist.bars.length,
      (((addSupportResistance (rsiAssign hist none)).getCol "Support").getD i none).isSome
        = true ∧
      (((addSupportResistance (rsiAssign hist none)).getCol "Resistance").getD i none).isSome
        = true) := by
  have hrows : hist.toFrame.rows.isEmpty = false := by
    cases hbb : hist.bars with
    | nil => exact absurd hbb hne
    | cons b bs => simp [PriceBars.toFrame, hbb]
  refine ⟨?_, ?_, ?_, ?_, ?_⟩
  · simp [get_price_history, hrows, hr, hm, hb, joinStep]
  · rw [addSR_colNames, rsiAssign_colNames]; rfl
  · rw [addSR_getCol_of_mem _ (rsiAssign_WF hist none) (by rw [rsiAssign_colNames]; simp)]
    show (hist.toFrame.setCol "RSI" (List.replicate hist.toFrame.rows.length none)).getCol "RSI"
      = _
    rw [getCol_setCol_self _ (toFrame_WF hist) _ (by rw [toFrame_colNames]; decide) (by simp),
      toFrame_rows_length]
  · rw [addSR_getCol_of_mem _ (rsiAssign_WF hist none) (by rw [rsiAssign_colNames]; simp),
      rsiAssign_getCol_close]
  · intro i hi
    have hcl : (rsiAssign hist none).getCol "Close" = hist.closes.map some :=
      rsiAssign_getCol_close hist none
    have hns : "Support" ∉ (rsiAssign hist none).colNames := by
      rw [rsiAssign_colNames]; decide
    have hnr : "Resistance" ∉ (rsiAssign hist none).colNames := by
      rw [rsiAssign_colNames]; decide
    have hcm : "Close" ∈ (rsiAssign hist none).colNames := by rw [rsiAssign_colNames]; simp
    have hi' : i < hist.closes.length := by simpa [PriceBars.closes] using hi
    have hlen' : i < (hist.closes.map some).length := by simpa using hi'
    have hwin : ((((hist.closes.map some).take (i + 1)).drop (i + 1 - 20)).filterMap id)
        = claimWindow hist.closes 20 i := by
      rw [window_of_map_some, claimWindow_eq]
    have hnenil : claimWindow hist.closes 20 i ≠ [] :=
      claimWindow_ne_nil _ _ _ hi' (by omega)
    have hlenpos : 0 < (claimWindow hist.closes 20 i).length := List.length_pos.mpr hnenil
    rcases aggMin_spec _ hnenil with ⟨sv, hsv, _, _⟩
    rcases aggMax_spec _ hnenil with ⟨rv, hrv, _, _⟩
    constructor
    · rw [addSR_getCol_support _ (rsiAssign_WF hist none) hns, hcl,
        rollingAgg_getD _ _ _ _ i hlen', hwin, if_neg (by omega), hsv]
      rfl
    · rw [addSR_getCol_resistance _ (rsiAssign_WF hist none) hcm hnr, hcl,
        rollingAgg_getD _ _ _ _ i hlen', hwin, if_neg (by omega), hrv]
      rfl

/-- A concrete five-bar fetched series (one trading week), with closes
10, 8, 12, 9, 11. -/
def hist5 : PriceBars :=
  ⟨[⟨0, 10, 11, 9, 10, 100⟩, ⟨1, 10, 10, 7, 8, 110⟩, ⟨2, 8, 13, 8, 12, 90⟩,
    ⟨3, 12, 12, 9, 9, 95⟩, ⟨4, 9, 12, 9, 11, 105⟩]⟩

/-- C1 counterexample: on a five-row series (below the RSI minimum of 14
rows, so the library reports `None` for every indicator) the output table is
produced with the column list containing `RSI`: the RSI column is present —
filled entirely with missing values and with no RSI warning logged — not
absent as the claim states, while support and resistance are populated on
all five rows. -/
theorem gph_rsi_absent_counterexample :
    (resultFrame? (get_price_history rsiNoneF macdNoneF bbNoneF hist5 "AAPL")).map
        Frame.colNames
      = some ["Open", "High", "Low", "Close", "Volume", "RSI", "Support", "Resistance"] ∧
    (resultFrame? (get_price_history rsiNoneF macdNoneF bbNoneF hist5 "AAPL")).map
        (fun f => f.colNames.contains "RSI") = some true ∧
    (resultFrame? (get_price_history rsiNoneF macdNoneF bbNoneF hist5 "AAPL")).map
        (fun f => f.getCol "RSI") = some (List.replicate 5 none) ∧
    (resultFrame? (get_price_history rsiNoneF macdNoneF bbNoneF hist5 "AAPL")).map
        (fun f => f.getCol "Support")
      = some [some 10, some 8, some 8, some 8, some 8] ∧
    (resultFrame? (get_price_history rsiNoneF macdNoneF bbNoneF hist5 "AAPL")).map
        (fun f => f.getCol "Resistance")
      = some [some 10, some 10, some 12, some 12, some 12] ∧
    resultWarnings? (get_price_history rsiNoneF macdNoneF bbNoneF hist5 "AAPL")
      = some [macdWarn "AAPL", bbWarn "AAPL"] := by
  decide

theorem gph_rsi_column_always_present_witness :
    get_price_history rsiNoneF macdNoneF bbNoneF histW "MSFT"
      = .ok (.table (addSupportResistance (rsiAssign histW none))
          [macdWarn "MSFT", bbWarn "MSFT"]) ∧
    (addSupportResistance (rsiAssign histW none)).colNames
      = ["Open", "High", "Low", "Close", "Volume", "RSI", "Support", "Resistance"] ∧
    (addSupportResistance (rsiAssign histW none)).getCol "RSI"
      = List.replicate histW.bars.length none ∧
    (addSupportResistance (rsiAssign histW none)).getCol "Close" = histW.closes.map some ∧
    (∀ i < histW.bars.length,
      (((addSupportResistance (rsiAssign histW none)).getCol "Support").getD i none).isSome
        = true ∧
      (((addSupportResistance (rsiAssign histW none)).getCol "Resistance").getD i none).isSome
        = true) :=
  gph_rsi_column_always_present rsiNoneF macdNoneF bbNoneF histW "MSFT"
    (by decide) (fun _ => rfl) (fun _ => rfl) (fun _ => rfl)

/-- C2 (amended): `get_price_history` contains no exception handler: an
exception raised by any of the three indicator computations propagates out of
the function unchanged.  (Only the insufficient-data `None` results of MACD
and Bollinger Bands are handled, by warning and omission, as proved for the
amended C1.) -/
theorem gph_indicator_error_propagates
    (rsiF : List Cell → Except String (Option (List Cell)))
    (macdF : List Cell → Except String (Option Frame))
    (bbandsF : List Cell → Except String (Option Frame))
    (hist : PriceBars) (symbol : String) (e : String)
    (hne : hist.bars ≠ []) :
    ((∀ s, rsiF s = .error e) →
      get_price_history rsiF macdF bbandsF hist symbol = .error e) ∧
    ((∀ s, rsiF s = .ok none) → (∀ s, macdF s = .error e) →
      get_price_history rsiF macdF bbandsF hist symbol = .error e) ∧
    ((∀ s, rsiF s = .ok none) → (∀ s, macdF s = .ok none) → (∀ s, bbandsF s = .error e) →
      get_price_history rsiF macdF bbandsF hist symbol = .error e) := by
  have hrows : hist.toFrame.rows.isEmpty = false := by
    cases hbb : hist.bars with
    | nil => exact absurd hbb hne
    | cons b bs => simp [PriceBars.toFrame, hbb]
  refine ⟨?_, ?_, ?_⟩
  · intro h1
    simp [get_price_history, hrows, h1]
  · intro h1 h2
    simp [get_price_history, hrows, h1, h2]
  · intro h1 h2 h3
    simp [get_price_history, hrows, h1, h2, h3]

/-- An RSI oracle whose every call raises an exception. -/
def rsiBoomF : List Cell → Except String (Option (List Cell)) := fun _ => .error "boom"

/-- C2 counterexample: with an RSI computation that raises, the exception
escapes `get_price_history` (the result is the raised error, not a table with
that indicator omitted), so indicator failures are not caught and logged. -/
theorem gph_error_caught_counterexample :
    get_price_history rsiBoomF macdNoneF bbNoneF hist5 "AAPL" = .error "boom" := rfl

theorem gph_indicator_error_propagates_witness :
    get_price_history rsiBoomF macdNoneF bbNoneF histW "MSFT" = .error "boom" :=
  (gph_indicator_error_propagates rsiBoomF macdNoneF bbNoneF histW "MSFT" "boom"
    (by decide)).1 (fun _ => rfl)

/-! ### News projection (`get_stock_news`) -/

/-- A Python value as handled by the news projection: a string, a dict with
string keys, or some other object. -/
inductive PyVal where
  | str (s : String)
  | dict (kvs : List (String × PyVal))
  | other

/-- Python `v.get(key, dflt)`: dict lookup with default; on a non-dict
receiver the attribute access raises (`AttributeError`). -/
def pyGet (v : PyVal) (key : String) (dflt : PyVal) : Except String PyVal :=
  match v with
  | .dict kvs => .ok ((kvs.lookup key).getD dflt)
  | _ => .error "AttributeError: get"

/-- Outcome of `get_stock_news`: the no-news message string, or the list of
projected (title, summary, pubDate) triples that `json.dumps` serializes. -/
inductive NewsOut where
  | msg (s : String)
  | items (l : List (PyVal × PyVal × PyVal))

/-- The projection loop of `get_stock_news` (src/mcp/server.py:62-71): each
item that is a dict containing a `content` key is projected through
`content.get` with fixed placeholder defaults; other items are skipped. -/
def simplifyNews : List PyVal → Except String (List (PyVal × PyVal × PyVal))
  | [] => .ok []
  | item :: rest =>
    match item with
    | .dict kvs =>
      match kvs.lookup "content" with
      | some content =>
        match pyGet content "title" (.str "No title") with
        | .error e => .error e
        | .ok t =>
          match pyGet content "summary" (.str "No summary") with
          | .error e => .error e
          | .ok s =>
            match pyGet content "pubDate" (.str "No date") with
            | .error e => .error e
            | .ok d =>
              match simplifyNews rest with
              | .error e => .error e
              | .ok tail => .ok ((t, s, d) :: tail)
      | none => simplifyNews rest
    | _ => simplifyNews rest

/-- `get_stock_news` (src/mcp/server.py:50-74): an empty provider result
yields a descriptive message; otherwise the projected items are serialized. -/
def get_stock_news (news : List PyVal) (symbol : String) : Except String NewsOut :=
  if news.isEmpty then .ok (.msg ("No news articles found for " ++ symbol ++ "."))
  else
    match simplifyNews news with
    | .error e => .error e
    | .ok l => .ok (.items l)

/-- The well-formedness the provider delivers in practice: any `content`
entry of a dict item is itself a dict. -/
def contentIsDict : PyVal → Bool
  | .dict kvs =>
    match kvs.lookup "content" with
    | some (.dict _) => true
    | some _ => false
    | none => true
  | _ => true

/-- The projection as the claim describes it: dict items with a dict
`content` become (title, summary, pubDate) with fixed placeholders for
missing fields; everything else is skipped. -/
def claimNewsProjection (news : List PyVal) : List (PyVal × PyVal × PyVal) :=
  news.filterMap (fun item =>
    match item with
    | .dict kvs =>
      match kvs.lookup "content" with
      | some (.dict ckvs) =>
        some ((ckvs.lookup "title").getD (.str "No title"),
          (ckvs.lookup "summary").getD (.str "No summary"),
          (ckvs.lookup "pubDate").getD (.str "No date"))
      | _ => none
    | _ => none)

theorem simplifyNews_eq_projection : ∀ (news : List PyVal),
    news.all contentIsDict = true →
    simplifyNews news = .ok (claimNewsProjection news) := by
  intro news
  induction news with
  | nil => intro _; rfl
  | cons item rest ih =>
    intro hall
    rw [List.all_cons, Bool.and_eq_true] at hall
    obtain ⟨hhd, htl⟩ := hall
    cases item with
    | str s => simp [simplifyNews, claimNewsProjection, ih htl]
    | other => simp [simplifyNews, claimNewsProjection, ih htl]
    | dict kvs =>
      cases hc : kvs.lookup "content" with
      | none => simp [simplifyNews, claimNewsProjection, hc, ih htl]
      | some content =>
        cases content with
        | str s => simp [contentIsDict, hc] at hhd
        | other => simp [contentIsDict, hc] at hhd
        | dict ckvs =>
          simp [simplifyNews, claimNewsProjection, hc, pyGet, ih htl]

/-- C7 (amended): every provider news item that is a dict whose `content`
value is a dict is projected to exactly the (title, summary, pubDate) triple
with the fixed placeholders `No title` / `No summary` / `No date` for missing
fields; items that are not dicts or lack a `content` key are silently
skipped; and when the provider returns no items at all, a descriptive
no-news message is returned instead of JSON.  (A dict item whose `content`
value is not a dict is not skipped: it raises.) -/
theorem news_projection_shape (news : List PyVal) (symbol : String)
    (hg : news.all contentIsDict = true) :
    get_stock_news news symbol =
      if news.isEmpty then .ok (.msg ("No news articles found for " ++ symbol ++ "."))
      else .ok (.items (claimNewsProjection news)) := by
  unfold get_stock_news
  cases news with
  | nil => rfl
  | cons item rest =>
    simp only [List.isEmpty_cons, Bool.false_eq_true, if_false,
      simplifyNews_eq_projection _ hg]

/-- C7 counterexample: a provider item that is a dict containing a `content`
key whose value is not a dict is neither projected nor skipped — the
projection raises an `AttributeError` that escapes `get_stock_news`. -/
theorem news_skip_malformed_counterexample :
    get_stock_news [PyVal.dict [("content", PyVal.other)]] "AAPL"
      = .error "AttributeError: get" := rfl

theorem news_projection_shape_witness :
    get_stock_news
        [PyVal.dict [("content", PyVal.dict [("title", PyVal.str "T1"),
          ("pubDate", PyVal.str "D1")])],
         PyVal.str "junk",
         PyVal.dict [("x", PyVal.str "y")]] "AAPL"
      = .ok (.items [(PyVal.str "T1", PyVal.str "No summary", PyVal.str "D1")]) := by
  have h := news_projection_shape
    [PyVal.dict [("content", PyVal.dict [("title", PyVal.str "T1"),
      ("pubDate", PyVal.str "D1")])],
     PyVal.str "junk",
     PyVal.dict [("x", PyVal.str "y")]] "AAPL" (by rfl)
  simpa [claimNewsProjection] using h

/-! ### Search dispatch (`search`) -/

/-- The result accessors of a constructed `yf.Search` object. -/
structure SearchEnv where
  all : String → PyVal
  quotes : String → PyVal
  news : String → PyVal

/-- Outcome of `search`: the fixed invalid-argument message returned as-is,
or the JSON serialization of the selected accessor's result. -/
inductive SearchOut where
  | msg (s : String)
  | json (v : PyVal)

/-- Python `str.lower()` (ASCII model, matching `search_type.lower()`). -/
def pyLower (s : String) : String := ⟨s.data.map Char.toLower⟩

/-- The fixed invalid-argument message (src/mcp/server.py:121). -/
def invalidSearchTypeMsg : String :=
  "Invalid output_type. Use \x27all\x27, \x27quotes\x27, or \x27news\x27."

/-- `search` (src/mcp/server.py:105-124): dispatch on `search_type.lower()`
to one of the three accessors of the search object; any other value returns
the fixed invalid-argument message without consulting an accessor. -/
def search (env : SearchEnv) (query : String) (search_type : String) : SearchOut :=
  match pyLower search_type with
  | "all" => .json (env.all query)
  | "quotes" => .json (env.quotes query)
  | "news" => .json (env.news query)
  | _ => .msg invalidSearchTypeMsg

/-- The invalid-argument message of a `search` outcome, when it is one. -/
def searchMsg? : SearchOut → Option String
  | .msg s => some s
  | .json _ => none

/-- C8 (amended): every `search_type` whose lowercased form is not one of
the recognized values `all`, `quotes`, `news` causes `search` to return the
one fixed invalid-argument message, without raising and independently of the
accessor environment (no accessor is consulted); recognition is
case-insensitive, so e.g. `ALL` is accepted rather than rejected. -/
theorem search_invalid_type_fixed_msg (env env2 : SearchEnv) (query query2 : String)
    (st : String) (h : pyLower st ∉ (["all", "quotes", "news"] : List String)) :
    search env query st = .msg invalidSearchTypeMsg ∧
    search env query st = search env2 query2 st := by
  have hall : pyLower st ≠ "all" := fun hc => h (by rw [hc]; simp)
  have hq : pyLower st ≠ "quotes" := fun hc => h (by rw [hc]; simp)
  have hn : pyLower st ≠ "news" := fun hc => h (by rw [hc]; simp)
  constructor
  · unfold search
    split <;> simp_all
  · unfold search
    split <;> simp_all

/-- A concrete accessor environment for instantiating the search claims. -/
def searchEnvC : SearchEnv :=
  ⟨fun _ => .str "all results", fun _ => .str "quote results", fun _ => .str "news results"⟩

/-- C8 counterexample: `ALL` differs from each of the three recognized
values, yet `search` does not return the invalid-argument message for it —
lowercasing makes it an accepted dispatch to the `all` accessor. -/
theorem search_uppercase_counterexample :
    searchMsg? (search searchEnvC "apple" "ALL") = none ∧
    ("ALL" : String) ≠ "all" ∧ ("ALL" : String) ≠ "quotes" ∧ ("ALL" : String) ≠ "news" := by
  refine ⟨rfl, by decide, by decide, by decide⟩

theorem search_invalid_type_fixed_msg_witness :
    search searchEnvC "apple" "frobnicate" = .msg invalidSearchTypeMsg :=
  (search_invalid_type_fixed_msg searchEnvC searchEnvC "apple" "apple" "frobnicate"
    (by decide)).1

/-! ### Analyst recommendations (`get_stock_recommendations`) -/

/-- One row of the provider's recommendations table. -/
abbrev RecRow := List String

/-- Outcome of `get_stock_recommendations`: the no-recommendations message,
or the rows rendered to the markdown table. -/
inductive RecOut where
  | msg (s : String)
  | table (rows : List RecRow)
deriving DecidableEq

/-- `get_stock_recommendations` (src/mcp/server.py:293-304): `None` or an
empty table yields a fixed descriptive message; otherwise the table is
limited to `recs.tail(20)` — its last twenty rows — and rendered. -/
def get_stock_recommendations (recs : Option (List RecRow)) (symbol : String) : RecOut :=
  match recs with
  | none => .msg ("No analyst recommendations available for " ++ symbol ++ ".")
  | some rows =>
    if rows.isEmpty then .msg ("No analyst recommendations available for " ++ symbol ++ ".")
    else .table (rows.drop (rows.length - 20))

/-- C9: whenever the provider returns a non-empty recommendations table, the
output holds at most the 20 most recent rows — the last 20 of the provider's
table, a suffix in the original order; when the provider returns none or an
empty table, the fixed descriptive message is returned instead. -/
theorem recs_tail_twenty (recs : Option (List RecRow)) (symbol : String) :
    ((recs = none ∨ recs = some [] →
      get_stock_recommendations recs symbol
        = .msg ("No analyst recommendations available for " ++ symbol ++ "."))) ∧
    (∀ rows, recs = some rows → rows ≠ [] →
      get_stock_recommendations recs symbol = .table ((rows.reverse.take 20).reverse) ∧
      ((rows.reverse.take 20).reverse).length ≤ 20 ∧
      (rows.reverse.take 20).reverse <:+ rows) := by
  constructor
  · rintro (rfl | rfl) <;> rfl
  · rintro rows rfl hne
    have hdrop : (rows.reverse.take 20).reverse = rows.drop (rows.length - 20) := by
      rw [List.take_reverse, List.reverse_reverse]
    refine ⟨?_, ?_, ?_⟩
    · rw [hdrop]
      simp [get_stock_recommendations, List.isEmpty_iff, hne]
    · rw [hdrop, List.length_drop]
      omega
    · rw [hdrop]
      exact List.drop_suffix _ _

theorem recs_tail_twenty_witness :
    get_stock_recommendations (some [["2024", "buy"], ["2025", "hold"], ["2026", "sell"]]) "MSFT"
      = .table [["2024", "buy"], ["2025", "hold"], ["2026", "sell"]] ∧
    get_stock_recommendations (none : Option (List RecRow)) "MSFT"
      = .msg "No analyst recommendations available for MSFT." := by
  constructor
  · have h := ((recs_tail_twenty
      (some [["2024", "buy"], ["2025", "hold"], ["2026", "sell"]]) "MSFT").2
      [["2024", "buy"], ["2025", "hold"], ["2026", "sell"]] rfl (by decide)).1
    simpa using h
  · exact (recs_tail_twenty none "MSFT").1 (Or.inl rfl)

/-! ### `df_to_dict_str_keys` (src/mcp/utils.py) -/

/-- A Python dict key: a string, or a non-string key (e.g. a timestamp)
that `str()` renders to its textual form. -/
inductive PKey where
  | pstr (s : String)
  | pnonstr (n : Int)
deriving DecidableEq

/-- Python `str(k)` on a key. -/
def PKey.render : PKey → String
  | .pstr s => s
  | .pnonstr n => toString n

/-- An inner value of `df.to_dict()`: a dict (one column keyed by row
label), or a non-dict value on which `.items()` raises. -/
inductive IV where
  | idict (kvs : List (PKey × Int))
  | iraw (v : Int)
deriving DecidableEq

/-- Whether an inner value is a dict. -/
def IV.isDict : IV → Bool
  | .idict _ => true
  | .iraw _ => false

/-- The result of `df.to_dict()`: a dict of columns, or a non-dict object
(the case the code's `isinstance(d, dict)` test is for). -/
inductive TD where
  | tdict (kvs : List (PKey × IV))
  | tnondict (v : Int)
deriving DecidableEq

/-- The value `df_to_dict_str_keys` returns when it returns: `none` is
Python `None`; otherwise the re-keyed nested dict, or the unchanged non-dict
object. -/
inductive TDOut where
  | odict (kvs : List (String × List (String × Int)))
  | oraw (v : Int)
deriving DecidableEq

/-- The inner comprehension: re-key one column dict with `str()` keys,
values unchanged. -/
def strKeysInner (kvs : List (PKey × Int)) : List (String × Int) :=
  kvs.map (fun p => (p.1.render, p.2))

/-- The outer comprehension of `df_to_dict_str_keys`: re-key every column,
raising (`AttributeError`) at an inner value that is not a dict. -/
def strKeysOuter : List (PKey × IV) → Except String (List (String × List (String × Int)))
  | [] => .ok []
  | (k, IV.idict ikvs) :: rest =>
    match strKeysOuter rest with
    | .error e => .error e
    | .ok l => .ok ((k.render, strKeysInner ikvs) :: l)
  | (_, IV.iraw _) :: _ => .error "AttributeError: items"

/-- `df_to_dict_str_keys` (src/mcp/utils.py:1-8): `None` maps to `None`; a
dict result of `to_dict()` is rebuilt with stringified keys at both levels
and unchanged inner values; a non-dict result is returned unchanged.  The
argument is the optional `to_dict()` rendering of the data-frame argument. -/
def df_to_dict_str_keys : Option TD → Except String (Option TDOut)
  | none => .ok none
  | some (.tnondict v) => .ok (some (.oraw v))
  | some (.tdict kvs) =>
    match strKeysOuter kvs with
    | .error e => .error e
    | .ok l => .ok (some (.odict l))

/-- The re-keying of one inner value as the claim describes it. -/
def IV.innerStrKeys : IV → List (String × Int)
  | .idict l => strKeysInner l
  | .iraw _ => []

theorem strKeysOuter_eq : ∀ (kvs : List (PKey × IV)),
    (∀ kv ∈ kvs, kv.2.isDict = true) →
    strKeysOuter kvs = .ok (kvs.map (fun kv => (kv.1.render, kv.2.innerStrKeys))) := by
  intro kvs
  induction kvs with
  | nil => intro _; rfl
  | cons kv rest ih =>
    intro h
    obtain ⟨k, v⟩ := kv
    cases v with
    | idict l =>
      simp only [strKeysOuter, ih (fun a ha => h a (by simp [ha])), List.map_cons]
      rfl
    | iraw w => simpa [IV.isDict] using h (k, IV.iraw w) (by simp)

/-- C10: `df_to_dict_str_keys` returns `None` exactly when its input is
`None`; when the input converts to a nested mapping (every inner value a
dict), every key of the result at both levels is a string — non-string keys
replaced by their `str()` rendering — and all inner values pass through
unchanged; a non-dict conversion result passes through unchanged. -/
theorem df_to_dict_str_keys_spec (td : Option TD) :
    (df_to_dict_str_keys td = .ok none ↔ td = none) ∧
    (∀ kvs, td = some (.tdict kvs) → (∀ kv ∈ kvs, kv.2.isDict = true) →
      df_to_dict_str_keys td
        = .ok (some (.odict (kvs.map (fun kv => (kv.1.render, kv.2.innerStrKeys)))))) ∧
    (∀ v, td = some (.tnondict v) → df_to_dict_str_keys td = .ok (some (.oraw v))) := by
  refine ⟨?_, ?_, ?_⟩
  · constructor
    · intro h
      cases td with
      | none => rfl
      | some t =>
        cases t with
        | tnondict v => simp [df_to_dict_str_keys] at h
        | tdict kvs =>
          simp only [df_to_dict_str_keys] at h
          cases hs : strKeysOuter kvs <;> rw [hs] at h <;> simp at h
    · rintro rfl; rfl
  · rintro kvs rfl hall
    simp only [df_to_dict_str_keys, strKeysOuter_eq kvs hall]
  · rintro v rfl; rfl

theorem df_to_dict_str_keys_spec_witness :
    df_to_dict_str_keys (some (.tdict [(.pstr "Total Assets", .idict [(.pnonstr 2024, 7)])]))
      = .ok (some (.odict [("Total Assets", [("2024", 7)])])) := by
  have h := (df_to_dict_str_keys_spec
      (some (.tdict [(.pstr "Total Assets", .idict [(.pnonstr 2024, 7)])]))).2.1
    [(.pstr "Total Assets", .idict [(.pnonstr 2024, 7)])] rfl (by decide)
  simpa [PKey.render, IV.innerStrKeys, strKeysInner] using h

/-! ### Symbol lookup and security-info shaping (`get_stock_info`) -/

/-- `get_stock_symbol_lookup` (src/mcp/server.py:27-48): the `yf.Search`
call is the oracle argument (`.error` models a raised exception, caught by
the function's handler); quote entries are flat string maps.  An empty quote
list yields the no-symbols message; a quote without a `symbol` key raises a
`KeyError` swallowed by the same handler. -/
def get_stock_symbol_lookup
    (searchQuotes : String → Except String (List (List (String × String))))
    (query : String) : String :=
  match searchQuotes query with
  | .error e => "Error looking up symbol: " ++ e
  | .ok [] => "No symbols found matching \x27" ++ query ++ "\x27."
  | .ok (q :: _) =>
    match q.lookup "symbol" with
    | some s => s
    | none => "Error looking up symbol: \x27symbol\x27"

/-- Python `s.startswith(pre)`. -/
def pyStartsWith (s pre : String) : Bool := pre.data.isPrefixOf s.data

/-- The acceptance test applied to the lookup result
(src/mcp/server.py:136): truthy (non-empty) and not starting with
`No symbols`, `Error`, or `Unable`. -/
def lookupGateOk (s : String) : Bool :=
  !(s == "") && !(pyStartsWith s "No symbols") && !(pyStartsWith s "Error")
    && !(pyStartsWith s "Unable")

/-- The flat attribute map `ticker.info`. -/
abbrev Info := List (String × PyVal)

/-- A value of the structured record `get_stock_info` serializes. -/
inductive GVal where
  | s (v : String)
  | grp (kvs : List (String × Option PyVal))
  | fin (kvs : List (String × Option (List (String × Int))))
  | targets (v : Option PyVal)
  | news (n : NewsOut)

/-- Outcome of `get_stock_info`: the symbol-not-found message (rendered from
the symbol and the lookup result it carries), or the structured record. -/
inductive StockInfoOut where
  | notFound (symbol lookupResult : String)
  | obj (fields : List (String × GVal))

/-- The external accesses `get_stock_info` performs, as oracles. -/
structure InfoEnv where
  tickerInfo : String → Info
  searchQuotes : String → Except String (List (List (String × String)))
  getNews : String → List PyVal
  balanceSheet : String → Except String (Option (List (PKey × IV)))
  cashflow : String → Except String (Option (List (PKey × IV)))
  quarterlyIncomeStmt : String → Except String (Option (List (PKey × IV)))
  analystPriceTargets : String → Except String (Option PyVal)
  financials : String → Except String (Option (List (PKey × IV)))

/-- One guarded financial sub-record fetch (src/mcp/server.py:153-177): a
raised exception is caught (warning logged), leaving `None`; a `None`
attribute stays `None`; otherwise the frame's `to_dict()` rendering is
re-keyed by `df_to_dict_str_keys`, whose own exception is caught the same
way. -/
def fetchFin (o : Except String (Option (List (PKey × IV)))) :
    Option (List (String × List (String × Int))) :=
  match o with
  | .error _ => none
  | .ok none => none
  | .ok (some kvs) =>
    match df_to_dict_str_keys (some (.tdict kvs)) with
    | .error _ => none
    | .ok none => none
    | .ok (some (.odict l)) => some l
    | .ok (some (.oraw _)) => none

/-- `{k: info.get(k) for k in keys}`. -/
def mkGrp (keys : List String) (info : Info) : List (String × Option PyVal) :=
  keys.map (fun k => (k, info.lookup k))

/-- The loop building a financial-highlights group: `{}` unless the fetched
sub-record is truthy (non-`None`, non-empty), else one `sub.get(key)` entry
per fixed key. -/
def mkFinGrp (keys : List String) (sub : Option (List (String × List (String × Int)))) :
    List (String × Option (List (String × Int))) :=
  match sub with
  | none => []
  | some l => if l.isEmpty then [] else keys.map (fun k => (k, l.lookup k))

/-- Fixed attribute lists of the fund groups (src/mcp/server.py:184-208). -/
def etfAnalysisKeys : List String := ["totalAssets", "netAssets", "netExpenseRatio",
  "ytdReturn", "threeYearAverageReturn", "fiveYearAverageReturn",
  "trailingThreeMonthReturns", "beta3Year", "dividendYield",
  "trailingAnnualDividendYield", "trailingAnnualDividendRate"]

/-- Fixed attribute list of the fund trading group. -/
def etfTradingKeys : List String := ["regularMarketPrice", "navPrice", "volume",
  "regularMarketVolume", "averageVolume", "averageVolume10days",
  "averageDailyVolume10Day", "averageDailyVolume3Month", "bid", "ask", "bidSize",
  "askSize"]

/-- Fixed attribute list of the fund price-movement group. -/
def etfPriceMovementKeys : List String := ["fiftyTwoWeekLow", "fiftyTwoWeekHigh",
  "fiftyTwoWeekRange", "fiftyTwoWeekChangePercent", "fiftyDayAverage",
  "twoHundredDayAverage", "regularMarketChange", "regularMarketChangePercent"]

/-- Fixed attribute list of the fund information group. -/
def etfFundInfoKeys : List String := ["category", "fundFamily", "longBusinessSummary",
  "fundInceptionDate", "shortName", "longName", "symbol"]

/-- Fixed attribute lists of the equity groups (src/mcp/server.py:222-274). -/
def coreValuationKeys : List String := ["currentPrice", "targetMeanPrice",
  "targetHighPrice", "targetLowPrice", "marketCap", "enterpriseValue", "trailingPE",
  "forwardPE", "priceToBook", "priceToSalesTrailing12Months", "trailingPegRatio"]

/-- Fixed attribute list of the equity financial-performance group. -/
def financialPerformanceKeys : List String := ["totalRevenue", "netIncomeToCommon",
  "grossProfits", "grossMargins", "operatingMargins", "ebitdaMargins",
  "profitMargins", "earningsGrowth", "revenueGrowth", "returnOnAssets",
  "returnOnEquity", "trailingEps", "forwardEps", "epsCurrentYear"]

/-- Fixed attribute list of the equity financial-health group. -/
def financialHealthKeys : List String := ["totalCash", "totalCashPerShare",
  "totalDebt", "debtToEquity", "currentRatio", "quickRatio", "freeCashflow",
  "operatingCashflow"]

/-- Fixed attribute list of the equity market-data group. -/
def marketDataKeys : List String := ["volume", "averageVolume", "beta",
  "fiftyTwoWeekLow", "fiftyTwoWeekHigh", "52WeekChange", "fiftyDayAverage",
  "twoHundredDayAverage", "recommendationMean", "recommendationKey",
  "numberOfAnalystOpinions"]

/-- Fixed attribute list of the equity dividend group. -/
def dividendInfoKeys : List String := ["dividendRate", "dividendYield",
  "payoutRatio", "trailingAnnualDividendRate", "exDividendDate"]

/-- Fixed key list of the balance-sheet highlights. -/
def balanceSheetKeys : List String := ["Total Assets", "Stockholders Equity",
  "Working Capital", "Cash And Cash Equivalents", "Total Debt", "Net PPE"]

/-- Fixed key list of the income-statement highlights. -/
def incomeStmtKeys : List String := ["Total Revenue", "Gross Profit",
  "Operating Income", "Net Income", "Cost Of Revenue", "Research And Development"]

/-- Fixed key list of the cash-flow highlights. -/
def cashFlowKeys : List String := ["Operating Cash Flow", "Free Cash Flow",
  "Capital Expenditure", "Cash Dividends Paid"]

/-- The record emitted for a fund-classified symbol (src/mcp/server.py:210-217). -/
def etfFields (info : Info) (sn : NewsOut) : List (String × GVal) :=
  [("stock_type", .s "ETF"),
   ("etf_analysis", .grp (mkGrp etfAnalysisKeys info)),
   ("trading_valuation", .grp (mkGrp etfTradingKeys info)),
   ("price_movement", .grp (mkGrp etfPriceMovementKeys info)),
   ("fund_information", .grp (mkGrp etfFundInfoKeys info)),
   ("stock_news", .news sn)]

/-- The record emitted for an equity-classified symbol
(src/mcp/server.py:276-288). -/
def equityFields (info : Info)
    (bs cf : Option (List (String × List (String × Int))))
    (apt : Option PyVal)
    (finData : Option (List (String × List (String × Int))))
    (sn : NewsOut) : List (String × GVal) :=
  [("stock_type", .s "EQUITY"),
   ("core_valuation_metrics", .grp (mkGrp coreValuationKeys info)),
   ("financial_performance", .grp (mkGrp financialPerformanceKeys info)),
   ("financial_health", .grp (mkGrp financialHealthKeys info)),
   ("market_data_trading", .grp (mkGrp marketDataKeys info)),
   ("dividend_information", .grp (mkGrp dividendInfoKeys info)),
   ("balance_sheet_essentials", .fin (mkFinGrp balanceSheetKeys bs)),
   ("income_statement_key_items", .fin (mkFinGrp incomeStmtKeys finData)),
   ("cash_flow_highlights", .fin (mkFinGrp cashFlowKeys cf)),
   ("analyst_price_targets", .targets apt),
   ("stock_news", .news sn)]

/-- The response-shaping tail of `get_stock_info`
(src/mcp/server.py:144-291), from the classification test on.  The optional
sub-records are fetched (guarded) only for non-fund symbols; the quarterly
income statement is fetched but never included in the record.  The nested
`get_stock_news` call is the only part that can raise. -/
def shapeInfo (env : InfoEnv) (symbol : String) (info : Info) :
    Except String StockInfoOut :=
  let is_etf : Bool := match info.lookup "quoteType" with
    | some (.str t) => t == "ETF"
    | _ => false
  let balance_sheet := if is_etf then none else fetchFin (env.balanceSheet symbol)
  let cash_flow := if is_etf then none else fetchFin (env.cashflow symbol)
  let _quarterly_income_stmt :=
    if is_etf then none else fetchFin (env.quarterlyIncomeStmt symbol)
  let analyst_price_targets := if is_etf then none else
    match env.analystPriceTargets symbol with
    | .error _ => none
    | .ok v => v
  let financialsData := if is_etf then none else fetchFin (env.financials symbol)
  match get_stock_news (env.getNews symbol) symbol with
  | .error e => .error e
  | .ok stock_news =>
    if is_etf then .ok (.obj (etfFields info stock_news))
    else .ok (.obj (equityFields info balance_sheet cash_flow analyst_price_targets
      financialsData stock_news))

/-- `get_stock_info` (src/mcp/server.py:126-291): fetch the attribute map;
if it is empty, run one symbol lookup and, on an accepted lookup result,
retry the fetch once with the corrected symbol and proceed (even if the
retried map is empty); on a rejected lookup result return the not-found
message.  Then classify and shape. -/
def get_stock_info (env : InfoEnv) (symbol : String) : Except String StockInfoOut :=
  let info := env.tickerInfo symbol
  if info.isEmpty then
    let correct_symbol := get_stock_symbol_lookup env.searchQuotes symbol
    if lookupGateOk correct_symbol then
      shapeInfo env correct_symbol (env.tickerInfo correct_symbol)
    else .ok (.notFound symbol correct_symbol)
  else shapeInfo env symbol info

/-- Whether the outcome is the symbol-not-found message. -/
def isNotFound : Except String StockInfoOut → Bool
  | .ok (.notFound _ _) => true
  | _ => false

/-- The `stock_type` discriminant of an object outcome. -/
def stockTypeOf : Except String StockInfoOut → Option String
  | .ok (.obj fields) =>
    match fields.lookup "stock_type" with
    | some (.s t) => some t
    | _ => none
  | _ => none

/-! ### Claim C5 -/

/-- C5 (amended): when the fetched attribute map is empty, exactly one
fallback lookup is attempted; if its result is rejected (empty, or starting
with a failure prefix), the symbol-not-found message is returned; if it is
accepted, the fetch is retried once and the request proceeds to the shaping
step with the corrected symbol and its attribute map — even when that
retried map is still empty (producing an equity-shaped record of absent
values rather than a symbol-not-found message), and succeeding on the
corrected symbol's data when it is non-empty.  A non-empty initial map skips
the lookup entirely. -/
theorem stock_info_lookup_retry (env : InfoEnv) (symbol : String) :
    (env.tickerInfo symbol ≠ [] →
      get_stock_info env symbol = shapeInfo env symbol (env.tickerInfo symbol)) ∧
    (env.tickerInfo symbol = [] →
      lookupGateOk (get_stock_symbol_lookup env.searchQuotes symbol) = false →
      get_stock_info env symbol
        = .ok (.notFound symbol (get_stock_symbol_lookup env.searchQuotes symbol))) ∧
    (env.tickerInfo symbol = [] →
      lookupGateOk (get_stock_symbol_lookup env.searchQuotes symbol) = true →
      get_stock_info env symbol
        = shapeInfo env (get_stock_symbol_lookup env.searchQuotes symbol)
            (env.tickerInfo (get_stock_symbol_lookup env.searchQuotes symbol))) := by
  refine ⟨?_, ?_, ?_⟩
  · intro h
    have he : (env.tickerInfo symbol).isEmpty = false := by
      cases hc : env.tickerInfo symbol with
      | nil => exact absurd hc h
      | cons a l => rfl
    simp [get_stock_info, he]
  · intro h hg
    simp [get_stock_info, h, hg]
  · intro h hg
    simp [get_stock_info, h, hg]

/-- An environment in which every attribute map is empty but the lookup
resolves any query to `MSFT`. -/
def envC5 : InfoEnv :=
  ⟨fun _ => [], fun _ => .ok [[("symbol", "MSFT")]], fun _ => [], fun _ => .ok none,
   fun _ => .ok none, fun _ => .ok none, fun _ => .ok none, fun _ => .ok none⟩

/-- C5 counterexample: the map for `APPL` is empty, the lookup returns the
corrected symbol `MSFT`, and the retried map for `MSFT` is still empty — yet
the function does not return a symbol-not-found message: it proceeds and
emits an equity-classified record (of absent values). -/
theorem stock_info_empty_retry_counterexample :
    envC5.tickerInfo "APPL" = [] ∧
    get_stock_symbol_lookup envC5.searchQuotes "APPL" = "MSFT" ∧
    envC5.tickerInfo "MSFT" = [] ∧
    isNotFound (get_stock_info envC5 "APPL") = false ∧
    stockTypeOf (get_stock_info envC5 "APPL") = some "EQUITY" :=
  ⟨rfl, rfl, rfl, rfl, rfl⟩

theorem stock_info_lookup_retry_witness :
    get_stock_info envC5 "APPL" = shapeInfo envC5 "MSFT" (envC5.tickerInfo "MSFT") :=
  (stock_info_lookup_retry envC5 "APPL").2.2 rfl rfl

/-! ### Claim C6 -/

/-- The fund thematic group names (the fixed ETF record keys besides the
discriminant and the news field). -/
def etfGroupNames : List String :=
  ["etf_analysis", "trading_valuation", "price_movement", "fund_information"]

/-- The equity thematic group names. -/
def equityGroupNames : List String :=
  ["core_valuation_metrics", "financial_performance", "financial_health",
   "market_data_trading", "dividend_information", "balance_sheet_essentials",
   "income_statement_key_items", "cash_flow_highlights", "analyst_price_targets"]

theorem etf_equity_groups_disjoint : List.Disjoint etfGroupNames equityGroupNames := by
  intro a ha hb
  simp only [etfGroupNames, List.mem_cons, List.not_mem_nil, or_false] at ha
  rcases ha with rfl | rfl | rfl | rfl <;> simp [equityGroupNames] at hb

theorem shapeInfo_obj_inv (env : InfoEnv) (symbol : String) (info : Info)
    (fields : List (String × GVal))
    (h : shapeInfo env symbol info = .ok (.obj fields)) :
    (fields.map Prod.fst = "stock_type" :: etfGroupNames ++ ["stock_news"] ∧
      fields.lookup "stock_type" = some (.s "ETF")) ∨
    (fields.map Prod.fst = "stock_type" :: equityGroupNames ++ ["stock_news"] ∧
      fields.lookup "stock_type" = some (.s "EQUITY")) := by
  unfold shapeInfo at h
  dsimp only [] at h
  split at h
  · simp at h
  · split at h
    · left
      simp only [Except.ok.injEq, StockInfoOut.obj.injEq] at h
      subst h
      constructor
      · rfl
      · rfl
    · right
      simp only [Except.ok.injEq, StockInfoOut.obj.injEq] at h
      subst h
      constructor
      · rfl
      · rfl

/-- C6: whenever `get_stock_info` emits a structured record, a
fund-classified record's keys are exactly the discriminant, the four
statically fixed fund groups, and the news field — containing no equity
group; an equity-classified record's keys are exactly the discriminant, the
nine statically fixed equity groups, and the news field — containing no fund
group; and the fund and equity group-name lists are disjoint. -/
theorem stock_info_groups_disjoint (env : InfoEnv) (symbol : String)
    (fields : List (String × GVal))
    (hres : get_stock_info env symbol = .ok (.obj fields)) :
    (fields.lookup "stock_type" = some (.s "ETF") →
      fields.map Prod.fst = "stock_type" :: etfGroupNames ++ ["stock_news"] ∧
      ∀ g ∈ equityGroupNames, g ∉ fields.map Prod.fst) ∧
    (fields.lookup "stock_type" = some (.s "EQUITY") →
      fields.map Prod.fst = "stock_type" :: equityGroupNames ++ ["stock_news"] ∧
      ∀ g ∈ etfGroupNames, g ∉ fields.map Prod.fst) ∧
    List.Disjoint etfGroupNames equityGroupNames := by
  have hshape : (fields.map Prod.fst = "stock_type" :: etfGroupNames ++ ["stock_news"] ∧
      fields.lookup "stock_type" = some (.s "ETF")) ∨
    (fields.map Prod.fst = "stock_type" :: equityGroupNames ++ ["stock_news"] ∧
      fields.lookup "stock_type" = some (.s "EQUITY")) := by
    unfold get_stock_info at hres
    dsimp only [] at hres
    split at hres
    · split at hres
      · exact shapeInfo_obj_inv _ _ _ _ hres
      · simp at hres
    · exact shapeInfo_obj_inv _ _ _ _ hres
  rcases hshape with ⟨hmap, hlk⟩ | ⟨hmap, hlk⟩
  · refine ⟨fun _ => ⟨hmap, ?_⟩, fun h2 => ?_, etf_equity_groups_disjoint⟩
    · intro g hg
      rw [hmap]
      revert hg
      revert g
      decide
    · rw [hlk] at h2
      simp only [Option.some.injEq, GVal.s.injEq] at h2
      exact absurd h2 (by decide)
  · refine ⟨fun h2 => ?_, fun _ => ⟨hmap, ?_⟩, etf_equity_groups_disjoint⟩
    · rw [hlk] at h2
      simp only [Option.some.injEq, GVal.s.injEq] at h2
      exact absurd h2 (by decide)
    · intro g hg
      rw [hmap]
      revert hg
      revert g
      decide

theorem stock_info_groups_disjoint_witness :
    (equityFields [] none none none none
        (.msg "No news articles found for MSFT.")).map Prod.fst
      = "stock_type" :: equityGroupNames ++ ["stock_news"] ∧
    ∀ g ∈ etfGroupNames, g ∉ (equityFields [] none none none none
        (.msg "No news articles found for MSFT.")).map Prod.fst :=
  (stock_info_groups_disjoint envC5 "APPL"
    (equityFields [] none none none none (.msg "No news articles found for MSFT."))
    rfl).2.1 rfl
